import Mathlib

/-!
Verification development for the ownerclanTeamMaker service layer.

Shallow embedding of the TypeScript sources:
- src/types/riot.types.ts        (data model)
- src/services/teamMaker.service.ts  (divideIntoTeams, optimizeLaneDistribution,
                                      findBestPlayerForLane, calculateTeamBalance)
- src/services/riotApi.service.ts    (calculateTierScore, analyzePlayerStats,
                                      getMatchDetails cache, rate-limiter retry handler)
- src/routes/api.routes.ts           (the divide-teams request handler)

JS numbers are modelled as rationals (exact arithmetic); Math.log10, a
floating-point transcendental, is modelled as an explicit function parameter
carried by the environment record.  Upstream HTTP results are modelled as an
environment of already-settled responses, since the analyzer only ever
consumes settled promise values.
-/

namespace TeamMaker

/-- The five lanes of the fixed role enumeration, in the order in which the
laneCount / laneDistribution record literals list them in the source. -/
inductive Lane where
  | TOP
  | JUNGLE
  | MIDDLE
  | BOTTOM
  | UTILITY
deriving DecidableEq, Repr

/-- Index of a lane in the fixed enumeration order (object key order of the
laneCount record literal). -/
def laneIdx : Lane → Nat
  | .TOP => 0
  | .JUNGLE => 1
  | .MIDDLE => 2
  | .BOTTOM => 3
  | .UTILITY => 4

/-- The laneDistribution record of PlayerStats: per-lane game counts. -/
structure LaneCount where
  TOP : Nat
  JUNGLE : Nat
  MIDDLE : Nat
  BOTTOM : Nat
  UTILITY : Nat
deriving DecidableEq, Repr

/-- Lookup laneCount[lane]. -/
def LaneCount.get (lc : LaneCount) : Lane → Nat
  | .TOP => lc.TOP
  | .JUNGLE => lc.JUNGLE
  | .MIDDLE => lc.MIDDLE
  | .BOTTOM => lc.BOTTOM
  | .UTILITY => lc.UTILITY

/-- The all-zero laneDistribution literal used for placeholder stats. -/
def zeroLanes : LaneCount := ⟨0, 0, 0, 0, 0⟩

/-- tierInfo sub-record of PlayerStats. -/
structure TierInfo where
  tier : String
  rank : String
  leaguePoints : Nat
deriving DecidableEq, Repr

/-- PlayerStats from riot.types.ts.  The optional scoreBreakdown field is
never written by the analyzed service revision and is omitted. -/
structure PlayerStats where
  gameName : String
  tagLine : String
  puuid : String
  avgKills : ℚ
  avgDeaths : ℚ
  avgAssists : ℚ
  avgCS : ℚ
  kda : ℚ
  winRate : ℚ
  preferredLane : Lane
  laneDistribution : LaneCount
  totalGames : Nat
  teamContribution : ℚ
  tierInfo : Option TierInfo
deriving DecidableEq, Repr

/-- laneDistribution record of a Team: an optional occupant per lane
(the TS type marks every lane key optional). -/
structure LaneAssign where
  TOP : Option PlayerStats
  JUNGLE : Option PlayerStats
  MIDDLE : Option PlayerStats
  BOTTOM : Option PlayerStats
  UTILITY : Option PlayerStats
deriving DecidableEq, Repr

/-- Lookup assignments[lane]. -/
def LaneAssign.get (a : LaneAssign) : Lane → Option PlayerStats
  | .TOP => a.TOP
  | .JUNGLE => a.JUNGLE
  | .MIDDLE => a.MIDDLE
  | .BOTTOM => a.BOTTOM
  | .UTILITY => a.UTILITY

/-- Write assignments[lane] = v. -/
def LaneAssign.set (a : LaneAssign) : Lane → Option PlayerStats → LaneAssign
  | .TOP, v => { a with TOP := v }
  | .JUNGLE, v => { a with JUNGLE := v }
  | .MIDDLE, v => { a with MIDDLE := v }
  | .BOTTOM, v => { a with BOTTOM := v }
  | .UTILITY, v => { a with UTILITY := v }

/-- The assignments record initialised with every lane null. -/
def emptyAssign : LaneAssign := ⟨none, none, none, none, none⟩

/-- The lanes array literal of optimizeLaneDistribution. -/
def lanesList : List Lane := [.TOP, .JUNGLE, .MIDDLE, .BOTTOM, .UTILITY]

/-- Unwrap an optional occupant to a zero- or one-element list. -/
def optList : Option PlayerStats → List PlayerStats
  | none => []
  | some p => [p]

/-- The list of players occupying some lane of an assignment, in lane order. -/
def LaneAssign.assigned (a : LaneAssign) : List PlayerStats :=
  optList a.TOP ++ optList a.JUNGLE ++ optList a.MIDDLE ++
    optList a.BOTTOM ++ optList a.UTILITY

/-- Team from riot.types.ts. -/
structure Team where
  teamNumber : Nat
  players : List PlayerStats
  avgTeamScore : ℚ
  laneDistribution : LaneAssign
deriving DecidableEq, Repr

/-- JS Math.round: round half towards positive infinity. -/
def jsRound (x : ℚ) : ℤ := ⌊x + 1 / 2⌋

/-- Math.round(x * 100) / 100 — round to two decimal places. -/
def round2 (x : ℚ) : ℚ := (jsRound (x * 100) : ℚ) / 100

/-- Math.round(x * 10) / 10 — round to one decimal place. -/
def round1 (x : ℚ) : ℚ := (jsRound (x * 10) : ℚ) / 10

/-- Per-player lane game count for one lane, player.laneDistribution[lane]. -/
def PlayerStats.laneCount (p : PlayerStats) (lane : Lane) : Nat :=
  p.laneDistribution.get lane

/-- The scan of findBestPlayerForLane: walk the players keeping the current
best player and its lane count, replacing them only on a strictly greater
count (the for-of loop of the source with its running bestPlayer and
maxLaneCount variables). -/
def bestScan (lane : Lane) : List PlayerStats → PlayerStats × Nat → PlayerStats × Nat
  | [], acc => acc
  | p :: ps, acc =>
      bestScan lane ps (if p.laneCount lane > acc.2 then (p, p.laneCount lane) else acc)

/-- findBestPlayerForLane: null on an empty list, otherwise the first player
attaining the maximum count for the lane, or null if that maximum is 0. -/
def findBestPlayerForLane (players : List PlayerStats) (lane : Lane) :
    Option PlayerStats :=
  match players with
  | [] => none
  | p :: ps =>
      let best := bestScan lane (p :: ps) (p, p.laneCount lane)
      if best.2 > 0 then some best.1 else none

/-- First pass of optimizeLaneDistribution: for each lane in order, assign the
best remaining player (if any) and remove it from the unassigned list
(indexOf + splice removes the first occurrence, i.e. List.erase). -/
def assignPass1 : List Lane → LaneAssign × List PlayerStats →
    LaneAssign × List PlayerStats
  | [], st => st
  | lane :: rest, (a, u) =>
      match findBestPlayerForLane u lane with
      | some p => assignPass1 rest (a.set lane (some p), u.erase p)
      | none => assignPass1 rest (a, u)

/-- Second pass: fill every still-empty lane with the next unassigned
player (shift from the front), as long as any remain. -/
def assignPass2 : List Lane → LaneAssign × List PlayerStats →
    LaneAssign × List PlayerStats
  | [], st => st
  | lane :: rest, (a, u) =>
      match a.get lane, u with
      | none, p :: u2 => assignPass2 rest (a.set lane (some p), u2)
      | _, _ => assignPass2 rest (a, u)

/-- optimizeLaneDistribution: run both passes over the team members and store
the resulting laneDistribution on the team. -/
def optimizeLaneDistribution (team : Team) : Team :=
  { team with
    laneDistribution :=
      (assignPass2 lanesList (assignPass1 lanesList (emptyAssign, team.players))).1 }

/-- Stable descending sort by teamContribution — Array.prototype.sort with
comparator (a, b) => b.teamContribution - a.teamContribution is a stable sort
placing higher contributions first. -/
def sortedByContribution (players : List PlayerStats) : List PlayerStats :=
  players.mergeSort (fun a b => decide (b.teamContribution ≤ a.teamContribution))

/-- The snake draft order array: team indices ascending then descending. -/
def draftOrder (teamCount : Nat) : List Nat :=
  List.range teamCount ++ (List.range teamCount).reverse

/-- Team index receiving pick number j of the draft:
draftOrder[draftIndex % draftOrder.length]. -/
def snakeTeamOf (teamCount j : Nat) : Nat :=
  ((draftOrder teamCount)[j % (draftOrder teamCount).length]?).getD 0

/-- teams[i].players.push(player) for a list of teams. -/
def pushToTeam : List Team → Nat → PlayerStats → List Team
  | [], _, _ => []
  | t :: ts, 0, p => { t with players := t.players ++ [p] } :: ts
  | t :: ts, i + 1, p => t :: pushToTeam ts i p

/-- The draft loop: walk the sorted players, pushing each to the team given
by the snake order at the running draft index. -/
def draftFrom (teamCount : Nat) : List PlayerStats → List Team → Nat → List Team
  | [], ts, _ => ts
  | p :: ps, ts, j => draftFrom teamCount ps (pushToTeam ts (snakeTeamOf teamCount j) p) (j + 1)

/-- The teamCount empty teams created before the draft. -/
def initialTeams (teamCount : Nat) : List Team :=
  (List.range teamCount).map (fun i =>
    { teamNumber := i + 1, players := [], avgTeamScore := 0,
      laneDistribution := emptyAssign : Team })

/-- Average team score step: sum of contributions divided by member count,
rounded to 2 decimals (team size is never zero on the reachable paths). -/
def withAvgScore (t : Team) : Team :=
  let totalScore := t.players.foldl (fun s p => s + p.teamContribution) 0
  { t with avgTeamScore := round2 (totalScore / (t.players.length : ℚ)) }

/-- divideIntoTeams from teamMaker.service.ts: validate the player count,
sort by contribution, snake-draft into teamCount empty teams, optimize each
lane assignment, and compute the average scores.  The thrown Error is
modelled as the error branch of Except. -/
def divideIntoTeams (players : List PlayerStats) : Except String (List Team) :=
  if players.length < 10 ∨ players.length % 5 ≠ 0 then
    .error "플레이어 수는 10명 이상이어야 하며, 5명 단위여야 합니다."
  else
    let teamCount := players.length / 5
    let sortedPlayers := sortedByContribution players
    let teams := initialTeams teamCount
    let teams := draftFrom teamCount sortedPlayers teams 0
    let teams := teams.map optimizeLaneDistribution
    let teams := teams.map withAvgScore
    .ok teams

/-- The teams as they stand right after the snake draft. -/
def draftedTeams (players : List PlayerStats) : List Team :=
  draftFrom (players.length / 5) (sortedByContribution players)
    (initialTeams (players.length / 5)) 0

/-- The teams divideIntoTeams returns on the valid-size path. -/
def finalTeams (players : List PlayerStats) : List Team :=
  ((draftedTeams players).map optimizeLaneDistribution).map withAvgScore

/-- The members team k receives from the draft: the sorted players at the
pick indices whose snake order lands on team index k, in pick order. -/
def snakeSlice (players : List PlayerStats) (k : Nat) : List PlayerStats :=
  (((sortedByContribution players).enum).filter
    (fun q => decide (snakeTeamOf (players.length / 5) q.1 = k))).map Prod.snd

/-- LeagueEntry from riot.types.ts (fields unused by the embedded service
code — leagueId, summonerId, summonerName and the boolean flags — omitted). -/
structure LeagueEntry where
  queueType : String
  tier : String
  rank : String
  leaguePoints : Nat
  wins : Nat
  losses : Nat
deriving DecidableEq, Repr

/-- ParticipantDto from riot.types.ts (presentation-only fields omitted). -/
structure ParticipantDto where
  puuid : String
  teamPosition : String
  individualPosition : String
  kills : Nat
  deaths : Nat
  assists : Nat
  totalMinionsKilled : Nat
  neutralMinionsKilled : Nat
  visionScore : Nat
  win : Bool
deriving DecidableEq, Repr

/-- MatchDto info sub-record (gameDuration is seconds). -/
structure MatchInfo where
  gameDuration : ℚ
  participants : List ParticipantDto
deriving DecidableEq, Repr

/-- MatchDto (metadata is never consumed by the service code). -/
structure MatchDto where
  info : MatchInfo
deriving DecidableEq, Repr

/-- RiotAccount from riot.types.ts. -/
structure RiotAccount where
  puuid : String
  gameName : String
  tagLine : String
deriving DecidableEq, Repr

/-- TIER_SCORES record of riotApi.service.ts, as a partial map from the tier
string (a JS object lookup yields undefined off the listed keys). -/
def TIER_SCORES : String → Option ℚ
  | "IRON" => some 0
  | "BRONZE" => some 400
  | "SILVER" => some 800
  | "GOLD" => some 1200
  | "PLATINUM" => some 1600
  | "EMERALD" => some 2000
  | "DIAMOND" => some 2400
  | "MASTER" => some 2800
  | "GRANDMASTER" => some 2800
  | "CHALLENGER" => some 2800
  | _ => none

/-- RANK_SCORES record of riotApi.service.ts. -/
def RANK_SCORES : String → Option ℚ
  | "IV" => some 0
  | "III" => some 100
  | "II" => some 200
  | "I" => some 300
  | _ => none

/-- JS numeric defaulting `x || d`: undefined falls back to the default, and
so does 0, because 0 is falsy. -/
def jsOrDefault (x : Option ℚ) (d : ℚ) : ℚ :=
  match x with
  | none => d
  | some v => if v = 0 then d else v

/-- calculateTierScore from riotApi.service.ts (lines 409-420). -/
def calculateTierScore (rankInfo : Option LeagueEntry) : ℚ :=
  match rankInfo with
  | none => 1200
  | some ri =>
      let baseScore := jsOrDefault (TIER_SCORES ri.tier) 1200
      if ri.tier = "MASTER" ∨ ri.tier = "GRANDMASTER" ∨ ri.tier = "CHALLENGER" then
        baseScore + ri.leaguePoints
      else
        let rankScore := jsOrDefault (RANK_SCORES ri.rank) 0
        baseScore + rankScore + ri.leaguePoints

/-- Settled upstream responses visible to one analyzePlayerStats run.
account is the settled result of getAccountByRiotId (null on any non-429
failure); leagues of getLeagueEntriesByPuuid; matchIds of getMatchHistory;
matchDetail the settled per-match result of getMatchDetails (null on a
terminal failure).  lg10 models the floating-point Math.log10. -/
structure RiotEnv where
  account : Option RiotAccount
  leagues : List LeagueEntry
  matchIds : List String
  matchDetail : String → Option MatchDto
  lg10 : ℚ → ℚ

/-- Rank entry selection: solo queue preferred, else flex (soloRank ||
flexRank on the find results). -/
def soloOrFlex (leagues : List LeagueEntry) : Option LeagueEntry :=
  match leagues.find? (fun l => l.queueType = "RANKED_SOLO_5x5") with
  | some solo => some solo
  | none => leagues.find? (fun l => l.queueType = "RANKED_FLEX_SR")

/-- Accumulator of the per-match statistics loop. -/
structure Agg where
  totalKills : Nat
  totalDeaths : Nat
  totalAssists : Nat
  totalVSPM : ℚ
  totalCSPM : ℚ
  wins : Nat
  lanes : LaneCount
deriving DecidableEq, Repr

/-- Initial values of the statistics accumulator. -/
def initAgg : Agg := ⟨0, 0, 0, 0, 0, 0, zeroLanes⟩

/-- laneCount[position]++ — the position string is counted only when it is
one of the five role keys (hasOwnProperty check). -/
def laneBump (lc : LaneCount) (position : String) : LaneCount :=
  if position = "TOP" then { lc with TOP := lc.TOP + 1 }
  else if position = "JUNGLE" then { lc with JUNGLE := lc.JUNGLE + 1 }
  else if position = "MIDDLE" then { lc with MIDDLE := lc.MIDDLE + 1 }
  else if position = "BOTTOM" then { lc with BOTTOM := lc.BOTTOM + 1 }
  else if position = "UTILITY" then { lc with UTILITY := lc.UTILITY + 1 }
  else lc

/-- Body of matches.forEach: find the participant row for the target puuid
and accumulate kills, deaths, assists, per-minute vision and CS (skipping
matches with non-positive duration), the win count and the lane counts
(individualPosition, falling back to teamPosition when empty). -/
def aggStep (puuid : String) (a : Agg) (m : MatchDto) : Agg :=
  match m.info.participants.find? (fun p => p.puuid = puuid) with
  | none => a
  | some p =>
      let a := { a with
        totalKills := a.totalKills + p.kills,
        totalDeaths := a.totalDeaths + p.deaths,
        totalAssists := a.totalAssists + p.assists }
      let gameDurationMinutes := m.info.gameDuration / 60
      let a :=
        if gameDurationMinutes > 0 then
          { a with
            totalVSPM := a.totalVSPM + (p.visionScore : ℚ) / gameDurationMinutes,
            totalCSPM := a.totalCSPM +
              ((p.totalMinionsKilled + p.neutralMinionsKilled : ℚ) / gameDurationMinutes) }
        else a
      let a := if p.win then { a with wins := a.wins + 1 } else a
      let position :=
        if p.individualPosition = "" then p.teamPosition else p.individualPosition
      if position ≠ "" then { a with lanes := laneBump a.lanes position } else a

/-- The successfully detailed matches of a run: per-id results with the null
failures filtered out. -/
def matchesOf (env : RiotEnv) : List MatchDto :=
  env.matchIds.filterMap env.matchDetail

/-- The aggregated statistics of a run. -/
def aggOf (puuid : String) (env : RiotEnv) : Agg :=
  (matchesOf env).foldl (aggStep puuid) initAgg

/-- avgKills of the aggregation. -/
def Agg.avgKills (a : Agg) (gamesPlayed : Nat) : ℚ := (a.totalKills : ℚ) / gamesPlayed

/-- avgDeaths of the aggregation. -/
def Agg.avgDeaths (a : Agg) (gamesPlayed : Nat) : ℚ := (a.totalDeaths : ℚ) / gamesPlayed

/-- avgAssists of the aggregation. -/
def Agg.avgAssists (a : Agg) (gamesPlayed : Nat) : ℚ := (a.totalAssists : ℚ) / gamesPlayed

/-- avgCSPM of the aggregation. -/
def Agg.avgCSPM (a : Agg) (gamesPlayed : Nat) : ℚ := a.totalCSPM / gamesPlayed

/-- avgVSPM of the aggregation. -/
def Agg.avgVSPM (a : Agg) (gamesPlayed : Nat) : ℚ := a.totalVSPM / gamesPlayed

/-- kda — guarded against division by zero deaths. -/
def Agg.kda (a : Agg) (gamesPlayed : Nat) : ℚ :=
  if a.avgDeaths gamesPlayed > 0 then
    (a.avgKills gamesPlayed + a.avgAssists gamesPlayed) / a.avgDeaths gamesPlayed
  else a.avgKills gamesPlayed + a.avgAssists gamesPlayed

/-- recentWinRate as a percentage. -/
def Agg.recentWinRate (a : Agg) (gamesPlayed : Nat) : ℚ :=
  ((a.wins : ℚ) / gamesPlayed) * 100

/-- The entries array of the laneCount record, in object key order. -/
def laneEntries (lc : LaneCount) : List (Lane × Nat) :=
  [(.TOP, lc.TOP), (.JUNGLE, lc.JUNGLE), (.MIDDLE, lc.MIDDLE),
   (.BOTTOM, lc.BOTTOM), (.UTILITY, lc.UTILITY)]

/-- Object.entries(laneCount).reduce((a, b) => count a >= count b ? a : b):
the first entry attaining the maximum count wins. -/
def preferredLaneOf (lc : LaneCount) : Lane :=
  match laneEntries lc with
  | [] => .TOP
  | e :: es => (es.foldl (fun a b => if a.2 ≥ b.2 then a else b) e).1

/-- kdaBonus: (kda - 3.0) * 30 clamped into [-150, 150] by
Math.max(-150, Math.min(150, x)). -/
def kdaBonusOf (kda : ℚ) : ℚ := max (-150) (min 150 ((kda - 3) * 30))

/-- winRateBonus: (winRate - 50) * 5, uncapped. -/
def winRateBonusOf (winRate : ℚ) : ℚ := (winRate - 50) * 5

/-- activityBonus: min(50, log10(totalSeasonGames) * 15) for a positive
season game count, else 0. -/
def activityBonusOf (lg10 : ℚ → ℚ) (totalSeasonGames : Nat) : ℚ :=
  if totalSeasonGames > 0 then min 50 (lg10 (totalSeasonGames : ℚ) * 15) else 0

/-- statsBonus: vision-based for UTILITY mains, CS-based otherwise. -/
def statsBonusOf (preferredLane : Lane) (avgVSPM avgCSPM : ℚ) : ℚ :=
  if preferredLane = .UTILITY then (avgVSPM - 2) * 20 else (avgCSPM - 13 / 2) * 10

/-- totalSeasonGames: season wins + losses from the rank entry, 0 when
unranked. -/
def seasonGamesOf (rankInfo : Option LeagueEntry) : Nat :=
  match rankInfo with
  | some ri => ri.wins + ri.losses
  | none => 0

/-- tierInfo field published on PlayerStats for a rank entry. -/
def tierInfoOf (rankInfo : Option LeagueEntry) : Option TierInfo :=
  rankInfo.map (fun ri => ⟨ri.tier, ri.rank, ri.leaguePoints⟩)

/-- The dummy PlayerStats returned when the account cannot be resolved
(lines 209-222 of riotApi.service.ts). -/
def unresolvedStats (gameName tagLine : String) : PlayerStats :=
  { gameName := gameName, tagLine := tagLine, puuid := "unknown",
    avgKills := 0, avgDeaths := 0, avgAssists := 0, avgCS := 0,
    kda := 0, winRate := 0, preferredLane := .TOP,
    laneDistribution := zeroLanes, totalGames := 0,
    teamContribution := 0, tierInfo := none }

/-- baseStats of a resolved account with a given teamContribution (the
record built before the match loop; used on the empty-match paths). -/
def baseStats (gameName tagLine : String) (acc : RiotAccount)
    (rankInfo : Option LeagueEntry) (score : ℚ) : PlayerStats :=
  { gameName := gameName, tagLine := tagLine, puuid := acc.puuid,
    avgKills := 0, avgDeaths := 0, avgAssists := 0, avgCS := 0,
    kda := 0, winRate := 0, preferredLane := .TOP,
    laneDistribution := zeroLanes, totalGames := 0,
    teamContribution := score, tierInfo := tierInfoOf rankInfo }

/-- The full-statistics result of the analyzer main branch: aggregate the
matches, derive the averages, compute the score components, and publish the
rounded record. -/
def mainStats (gameName tagLine : String) (acc : RiotAccount)
    (rankInfo : Option LeagueEntry) (lg10 : ℚ → ℚ)
    (ms : List MatchDto) : PlayerStats :=
  let agg := ms.foldl (aggStep acc.puuid) initAgg
  let gamesPlayed := ms.length
  let kda := agg.kda gamesPlayed
  let recentWinRate := agg.recentWinRate gamesPlayed
  let preferredLane := preferredLaneOf agg.lanes
  let tierScore := calculateTierScore rankInfo
  let kdaBonus := kdaBonusOf kda
  let winRateBonus := winRateBonusOf recentWinRate
  let totalSeasonGames := seasonGamesOf rankInfo
  let activityBonus := activityBonusOf lg10 totalSeasonGames
  let statsBonus := statsBonusOf preferredLane (agg.avgVSPM gamesPlayed) (agg.avgCSPM gamesPlayed)
  let finalScore := tierScore + kdaBonus + winRateBonus + activityBonus + statsBonus
  { gameName := gameName, tagLine := tagLine, puuid := acc.puuid,
    avgKills := round2 (agg.avgKills gamesPlayed),
    avgDeaths := round2 (agg.avgDeaths gamesPlayed),
    avgAssists := round2 (agg.avgAssists gamesPlayed),
    avgCS := round1 (agg.avgCSPM gamesPlayed),
    kda := round2 kda,
    winRate := round2 recentWinRate,
    preferredLane := preferredLane,
    laneDistribution := agg.lanes,
    totalGames := totalSeasonGames,
    teamContribution := round2 finalScore,
    tierInfo := tierInfoOf rankInfo }

/-- analyzePlayerStats for a resolved account: select the rank entry, short
circuit to the tier score when no match ids or no detailed matches exist,
otherwise compute the full statistics. -/
def analyzeResolved (gameName tagLine : String) (acc : RiotAccount)
    (env : RiotEnv) : PlayerStats :=
  let rankInfo := soloOrFlex env.leagues
  if env.matchIds = [] then
    baseStats gameName tagLine acc rankInfo (calculateTierScore rankInfo)
  else
    let ms := matchesOf env
    if ms.length = 0 then
      baseStats gameName tagLine acc rankInfo (calculateTierScore rankInfo)
    else
      mainStats gameName tagLine acc rankInfo env.lg10 ms

/-- analyzePlayerStats from riotApi.service.ts (lines 195-406).  The outer
catch branch is unreachable in the embedding: every step is total, mirroring
the service revision in which every fetch helper settles with a default
instead of rejecting. -/
def analyzePlayerStats (gameName tagLine : String) (env : RiotEnv) : PlayerStats :=
  match env.account with
  | none => unresolvedStats gameName tagLine
  | some acc => analyzeResolved gameName tagLine acc env

/-- The matchCache of RiotApiService: matchId keyed settled results of the
cached promises.  A stored none is a promise that resolved to null after a
terminal (non-429) failure. -/
abbrev MatchCache := List (String × Option MatchDto)

/-- this.matchCache.has / get combined: the settled value under a key. -/
def cacheLookup (c : MatchCache) (k : String) : Option (Option MatchDto) :=
  match c.find? (fun e => e.1 = k) with
  | some e => some e.2
  | none => none

/-- getMatchDetails (lines 169-192): return the cached promise when present;
otherwise run the fetch (none models the catch branch returning null on a
terminal upstream error), store the promise in the cache, and return it. -/
def getMatchDetails (fetchResult : String → Option MatchDto) (c : MatchCache)
    (matchId : String) : Option MatchDto × MatchCache :=
  match cacheLookup c matchId with
  | some v => (v, c)
  | none =>
      let r := fetchResult matchId
      (r, c ++ [(matchId, r)])

/-- An upstream rejection as seen by the Bottleneck failed handler: either a
429 carrying the optional retry-after header (in seconds), or another
status. -/
inductive UpstreamError where
  | rateLimited (retryAfterHeader : Option Nat)
  | status (code : Nat)
deriving DecidableEq, Repr

/-- The wait computed by the failed handler for a 429: the retry-after
header in milliseconds, or the 10000 ms fallback when absent. -/
def limiterDelayMs (retryAfterHeader : Option Nat) : Nat :=
  match retryAfterHeader with
  | some s => s * 1000
  | none => 10000

/-- The limiter.on failed handler (lines 65-73): a 429 yields a retry delay,
any other error yields undefined, which tells Bottleneck not to retry. -/
def limiterOnFailed : UpstreamError → Option Nat
  | .rateLimited h => some (limiterDelayMs h)
  | .status _ => none

/-- Bottleneck retry mechanics for one job: the list holds the upstream
outcome of each successive submission of the same request.  A failed attempt
consults the handler: a returned delay reruns the job after that many
milliseconds, an undefined return settles the job promise with the failure.
The result pairs the waits taken before each resubmission with the settled
outcome; none means the modelled outcome list was exhausted while the job
was still being retried. -/
def scheduleWithRetries {α : Type} (handler : UpstreamError → Option Nat) :
    List (Except UpstreamError α) → Option (List Nat × Except UpstreamError α)
  | [] => none
  | a :: rest =>
      match a with
      | .ok v => some ([], .ok v)
      | .error e =>
          match handler e with
          | none => some ([], .error e)
          | some d =>
              match scheduleWithRetries handler rest with
              | none => none
              | some (ws, r) => some (d :: ws, r)

/-- Errors surfaced by the divide-teams route handler. -/
inductive HandlerError where
  | invalidInput
  | insufficientResults (successCount : Nat)
  | sseError (message : String)
deriving DecidableEq, Repr

/-- Boolean success test for an Except value. -/
def exceptIsOk {ε α : Type} : Except ε α → Bool
  | .ok _ => true
  | .error _ => false

/-- The divide-teams handler (api.routes.ts lines 86-190): reject a batch
whose size is below 10 or not a multiple of 5; analyze every identity (the
per-identity catch never fires because analyzePlayerStats settles for every
input, so the null filter keeps all entries); raise InsufficientResults when
fewer than 10 analyzed entries exist; then divide into teams.  The balance
metric of the success payload (a standard deviation) is presentation data
and is omitted from the embedding. -/
def divideTeamsHandler (batch : List (String × String × RiotEnv)) :
    Except HandlerError (List Team) :=
  if batch.length < 10 ∨ batch.length % 5 ≠ 0 then .error .invalidInput
  else
    let playerStats := batch.map (fun b => analyzePlayerStats b.1 b.2.1 b.2.2)
    let validStats := playerStats
    if validStats.length < 10 then .error (.insufficientResults validStats.length)
    else
      match divideIntoTeams validStats with
      | .ok teams => .ok teams
      | .error m => .error (.sseError m)

/-- A minimal PlayerStats value for concrete test vectors. -/
def mkPlayer (name : String) (contribution : ℚ) (lanes : LaneCount) : PlayerStats :=
  { gameName := name, tagLine := "KR1", puuid := name,
    avgKills := 0, avgDeaths := 0, avgAssists := 0, avgCS := 0,
    kda := 0, winRate := 0, preferredLane := .TOP,
    laneDistribution := lanes, totalGames := 0,
    teamContribution := contribution, tierInfo := none }

/-- Ten concrete players used by the witnesses. -/
def demoPlayers : List PlayerStats :=
  [mkPlayer "p0" 2400 ⟨9, 0, 1, 0, 0⟩, mkPlayer "p1" 2200 ⟨0, 8, 2, 0, 0⟩,
   mkPlayer "p2" 2000 ⟨0, 0, 7, 3, 0⟩, mkPlayer "p3" 1800 ⟨0, 0, 0, 9, 1⟩,
   mkPlayer "p4" 1600 ⟨0, 0, 0, 0, 10⟩, mkPlayer "p5" 1400 ⟨5, 5, 0, 0, 0⟩,
   mkPlayer "p6" 1200 ⟨0, 4, 6, 0, 0⟩, mkPlayer "p7" 1000 ⟨0, 0, 0, 6, 4⟩,
   mkPlayer "p8" 800 ⟨2, 0, 0, 0, 8⟩, mkPlayer "p9" 600 ⟨0, 0, 0, 0, 0⟩]

/-- An upstream environment in which the account lookup failed. -/
def unresolvedEnv : RiotEnv :=
  { account := none, leagues := [], matchIds := [],
    matchDetail := fun _ => none, lg10 := fun _ => 0 }

/-- A one-participant ranked match fixture: 3 minutes long, 3 kills, 1
death, 0 assists, 20 CS, a win on TOP. -/
def demoMatch : MatchDto :=
  { info := { gameDuration := 180,
              participants := [{ puuid := "acc-puuid", teamPosition := "TOP",
                                 individualPosition := "TOP", kills := 3, deaths := 1,
                                 assists := 0, totalMinionsKilled := 19,
                                 neutralMinionsKilled := 1, visionScore := 6,
                                 win := true }] } }

/-- An environment with one resolved account, no rank entry and one
successfully detailed match. -/
def demoEnv : RiotEnv :=
  { account := some ⟨"acc-puuid", "demo", "KR1"⟩, leagues := [],
    matchIds := ["KR_1"],
    matchDetail := fun m => if m = "KR_1" then some demoMatch else none,
    lg10 := fun _ => 0 }

/-- A batch of ten identities none of which resolves to an account. -/
def unresolvedBatch : List (String × String × RiotEnv) :=
  (List.range 10).map (fun i => (toString i, "KR1", unresolvedEnv))

/-- The scenario batch of §8 of the spec: eight resolvable identities and
two unresolvable ones. -/
def mixedBatch : List (String × String × RiotEnv) :=
  (List.range 8).map (fun i => (toString i, "KR1", demoEnv)) ++
    [("x8", "KR1", unresolvedEnv), ("x9", "KR1", unresolvedEnv)]

/-! ## Lemmas -/

theorem cacheLookup_append_self (c : MatchCache) (k : String) (v : Option MatchDto)
    (h : cacheLookup c k = none) : cacheLookup (c ++ [(k, v)]) k = some v := by
  have hf : c.find? (fun e => decide (e.1 = k)) = none := by
    rcases hfc : c.find? (fun e => decide (e.1 = k)) with _ | e
    · exact hfc
    · unfold cacheLookup at h
      rw [hfc] at h
      simp at h
  unfold cacheLookup
  rw [List.find?_append, hf]
  simp

theorem analyzePlayerStats_main (gn tl : String) (acc : RiotAccount) (env : RiotEnv)
    (hacc : env.account = some acc) (hne : matchesOf env ≠ []) :
    analyzePlayerStats gn tl env =
      mainStats gn tl acc (soloOrFlex env.leagues) env.lg10 (matchesOf env) := by
  have hmid : ¬(env.matchIds = []) := by
    intro h
    apply hne
    simp [matchesOf, h]
  have hlen : ¬((matchesOf env).length = 0) := by
    simpa using hne
  simp [analyzePlayerStats, hacc, analyzeResolved, hmid, hlen]

theorem preferredLaneOf_spec (lc : LaneCount) :
    (∀ l, lc.get l ≤ lc.get (preferredLaneOf lc)) ∧
    (∀ l, lc.get l = lc.get (preferredLaneOf lc) →
      laneIdx (preferredLaneOf lc) ≤ laneIdx l) := by
  obtain ⟨t, j, m, b, u⟩ := lc
  simp only [preferredLaneOf, laneEntries, List.foldl_cons, List.foldl_nil]
  split_ifs <;>
    (refine ⟨?_, ?_⟩ <;> intro l <;> cases l <;>
      simp_all [LaneCount.get, laneIdx] <;> omega)

/-! ## Claim theorems -/

/-- C1 (code_bug evaluation): calculateTierScore maps an IRON IV 0 LP entry
to 1200 — the 0 base of the TIER_SCORES table is falsy, so the 1200 fallback
of the lookup replaces it — while the documented scale gives IRON base 0.
The non-IRON tiers follow the documented scale (GOLD II 37 LP = 1200 + 200 +
37; GRANDMASTER 651 LP = 2800 + 651; unranked default 1200). -/
theorem calculateTierScore_iron_fallback :
    calculateTierScore (some ⟨"RANKED_SOLO_5x5", "IRON", "IV", 0, 0, 0⟩) = 1200 ∧
    calculateTierScore (some ⟨"RANKED_SOLO_5x5", "GOLD", "II", 37, 0, 0⟩) = 1437 ∧
    calculateTierScore (some ⟨"RANKED_SOLO_5x5", "GRANDMASTER", "I", 651, 0, 0⟩) = 3451 ∧
    calculateTierScore none = 1200 := by
  refine ⟨?_, ?_, ?_, ?_⟩ <;>
    norm_num [calculateTierScore, TIER_SCORES, RANK_SCORES, jsOrDefault] <;>
    decide

/-- C2: divideIntoTeams raises exactly when the player count is below 10 or
not a multiple of 5. -/
theorem divideIntoTeams_error_iff (players : List PlayerStats) :
    (∃ e, divideIntoTeams players = .error e) ↔
      (players.length < 10 ∨ players.length % 5 ≠ 0) := by
  unfold divideIntoTeams
  split
  · case isTrue h => exact ⟨fun _ => h, fun _ => ⟨_, rfl⟩⟩
  · case isFalse h =>
      constructor
      · rintro ⟨e, he⟩
        simp at he
      · intro hcond
        exact absurd hcond h

/-- C5: when the account lookup settles with null, analyzePlayerStats
returns the zero-value placeholder: unknown puuid, zero averages, zero kda,
win rate, total games and teamContribution. -/
theorem analyzePlayerStats_unresolved (gameName tagLine : String) (env : RiotEnv)
    (h : env.account = none) :
    (analyzePlayerStats gameName tagLine env).puuid = "unknown" ∧
    (analyzePlayerStats gameName tagLine env).avgKills = 0 ∧
    (analyzePlayerStats gameName tagLine env).avgDeaths = 0 ∧
    (analyzePlayerStats gameName tagLine env).avgAssists = 0 ∧
    (analyzePlayerStats gameName tagLine env).avgCS = 0 ∧
    (analyzePlayerStats gameName tagLine env).kda = 0 ∧
    (analyzePlayerStats gameName tagLine env).winRate = 0 ∧
    (analyzePlayerStats gameName tagLine env).totalGames = 0 ∧
    (analyzePlayerStats gameName tagLine env).teamContribution = 0 := by
  simp [analyzePlayerStats, h, unresolvedStats]

/-- Witness for C5 at a concrete unresolved environment. -/
theorem analyzePlayerStats_unresolved_witness :
    unresolvedEnv.account = none ∧
    ((analyzePlayerStats "demo" "KR1" unresolvedEnv).puuid = "unknown" ∧
     (analyzePlayerStats "demo" "KR1" unresolvedEnv).avgKills = 0 ∧
     (analyzePlayerStats "demo" "KR1" unresolvedEnv).avgDeaths = 0 ∧
     (analyzePlayerStats "demo" "KR1" unresolvedEnv).avgAssists = 0 ∧
     (analyzePlayerStats "demo" "KR1" unresolvedEnv).avgCS = 0 ∧
     (analyzePlayerStats "demo" "KR1" unresolvedEnv).kda = 0 ∧
     (analyzePlayerStats "demo" "KR1" unresolvedEnv).winRate = 0 ∧
     (analyzePlayerStats "demo" "KR1" unresolvedEnv).totalGames = 0 ∧
     (analyzePlayerStats "demo" "KR1" unresolvedEnv).teamContribution = 0) :=
  ⟨rfl, analyzePlayerStats_unresolved "demo" "KR1" unresolvedEnv rfl⟩

/-- C7 (counterexample): after a terminal failure for KR_1, the cache keeps
the null placeholder, and a later call — even with a now-healthy upstream —
returns the cached null instead of issuing a fresh fetch. -/
theorem getMatchDetails_failure_cached_cex :
    (getMatchDetails (fun _ => none) ([] : MatchCache) "KR_1").2 = [("KR_1", none)] ∧
    (getMatchDetails (fun _ => some demoMatch) [("KR_1", none)] "KR_1").1 = none := by
  exact ⟨rfl, rfl⟩

/-- C7 (amended): on a terminal upstream failure getMatchDetails stores the
null-resolving entry under the match id and keeps it, so every later call
for that id observes the cached null, never a fresh upstream fetch. -/
theorem getMatchDetails_failure_sticky (f : String → Option MatchDto)
    (c : MatchCache) (k : String) (hmiss : cacheLookup c k = none)
    (hfail : f k = none) :
    cacheLookup (getMatchDetails f c k).2 k = some none ∧
    (∀ g : String → Option MatchDto,
      (getMatchDetails g (getMatchDetails f c k).2 k).1 = none) := by
  have hstore : (getMatchDetails f c k).2 = c ++ [(k, none)] := by
    simp [getMatchDetails, hmiss, hfail]
  have hlook : cacheLookup (getMatchDetails f c k).2 k = some none := by
    rw [hstore]; exact cacheLookup_append_self c k none hmiss
  refine ⟨hlook, fun g => ?_⟩
  rw [hstore] at hlook ⊢
  unfold getMatchDetails
  rw [hlook]

/-- Witness for C7 amended at the concrete empty cache. -/
theorem getMatchDetails_failure_sticky_witness :
    cacheLookup ([] : MatchCache) "KR_1" = none ∧
    (fun _ : String => (none : Option MatchDto)) "KR_1" = none ∧
    (cacheLookup (getMatchDetails (fun _ => none) ([] : MatchCache) "KR_1").2 "KR_1" = some none ∧
     (∀ g : String → Option MatchDto,
       (getMatchDetails g (getMatchDetails (fun _ => none) ([] : MatchCache) "KR_1").2 "KR_1").1 = none)) :=
  ⟨rfl, rfl, getMatchDetails_failure_sticky (fun _ => none) [] "KR_1" rfl rfl⟩

/-- C9: under the registered failed handler, a job settles as a throttled
failure for no sequence of upstream outcomes — every 429 is retried — and
when the first n submissions are throttled and the next succeeds, the job
waits exactly the server retry-after hint in milliseconds (10000 ms when the
header is absent) before each resubmission and settles with the success. -/
theorem limiter_retries_throttled (hints : List (Option Nat)) (v : Nat) :
    (∀ (l : List (Except UpstreamError Nat)) (ws : List Nat) (r : Except UpstreamError Nat),
        scheduleWithRetries limiterOnFailed l = some (ws, r) →
        ∀ h, r ≠ .error (.rateLimited h)) ∧
    scheduleWithRetries limiterOnFailed
        (hints.map (fun h => .error (.rateLimited h)) ++ [.ok v]) =
      some (hints.map limiterDelayMs, .ok v) := by
  constructor
  · intro l
    induction l with
    | nil => intro ws r hr; simp [scheduleWithRetries] at hr
    | cons a rest ih =>
        intro ws r hr h
        match a with
        | .ok w =>
            simp [scheduleWithRetries] at hr
            rw [← hr.2]
            simp
        | .error (.status code) =>
            simp [scheduleWithRetries, limiterOnFailed] at hr
            rw [← hr.2]
            simp
        | .error (.rateLimited h2) =>
            simp only [scheduleWithRetries, limiterOnFailed] at hr
            rcases hrec : scheduleWithRetries limiterOnFailed rest with _ | ⟨ws2, r2⟩
            · rw [hrec] at hr; simp at hr
            · rw [hrec] at hr
              simp at hr
              have := ih ws2 r2 hrec h
              rw [← hr.2]
              exact this
  · induction hints with
    | nil => simp [scheduleWithRetries]
    | cons h rest ih => simp [scheduleWithRetries, limiterOnFailed, ih]

/-- C3 (counterexample): the published teamContribution is the component sum
rounded to two decimals, not the exact sum — at demoEnv (tier 1200, kdaBonus
0, winRateBonus 250, activityBonus 0, statsBonus 5/3) the exact sum 4355/3
has a nonterminating decimal expansion and the published score is 1451.67. -/
theorem teamContribution_not_exact_sum_cex :
    (analyzePlayerStats "demo" "KR1" demoEnv).teamContribution ≠
      calculateTierScore (soloOrFlex demoEnv.leagues) +
      kdaBonusOf ((aggOf "acc-puuid" demoEnv).kda (matchesOf demoEnv).length) +
      winRateBonusOf ((aggOf "acc-puuid" demoEnv).recentWinRate (matchesOf demoEnv).length) +
      activityBonusOf demoEnv.lg10 (seasonGamesOf (soloOrFlex demoEnv.leagues)) +
      statsBonusOf (preferredLaneOf (aggOf "acc-puuid" demoEnv).lanes)
        ((aggOf "acc-puuid" demoEnv).avgVSPM (matchesOf demoEnv).length)
        ((aggOf "acc-puuid" demoEnv).avgCSPM (matchesOf demoEnv).length) := by
  have h1 : (analyzePlayerStats "demo" "KR1" demoEnv).teamContribution = 145167 / 100 := by
    rw [analyzePlayerStats_main "demo" "KR1" ⟨"acc-puuid", "demo", "KR1"⟩ demoEnv rfl
      (by simp [matchesOf, demoEnv, demoMatch])]
    simp [mainStats, matchesOf, demoEnv, demoMatch, aggStep, initAgg, laneBump, soloOrFlex,
      calculateTierScore, Agg.kda, Agg.avgKills, Agg.avgDeaths, Agg.avgAssists, Agg.avgCSPM,
      Agg.avgVSPM, Agg.recentWinRate, preferredLaneOf, laneEntries, kdaBonusOf, winRateBonusOf,
      activityBonusOf, statsBonusOf, seasonGamesOf, round2, jsRound, zeroLanes]
    norm_num
  have h2 : calculateTierScore (soloOrFlex demoEnv.leagues) +
      kdaBonusOf ((aggOf "acc-puuid" demoEnv).kda (matchesOf demoEnv).length) +
      winRateBonusOf ((aggOf "acc-puuid" demoEnv).recentWinRate (matchesOf demoEnv).length) +
      activityBonusOf demoEnv.lg10 (seasonGamesOf (soloOrFlex demoEnv.leagues)) +
      statsBonusOf (preferredLaneOf (aggOf "acc-puuid" demoEnv).lanes)
        ((aggOf "acc-puuid" demoEnv).avgVSPM (matchesOf demoEnv).length)
        ((aggOf "acc-puuid" demoEnv).avgCSPM (matchesOf demoEnv).length) = 4355 / 3 := by
    simp [aggOf, matchesOf, demoEnv, demoMatch, aggStep, initAgg, laneBump, soloOrFlex,
      calculateTierScore, Agg.kda, Agg.avgKills, Agg.avgDeaths, Agg.avgAssists, Agg.avgCSPM,
      Agg.avgVSPM, Agg.recentWinRate, preferredLaneOf, laneEntries, kdaBonusOf, winRateBonusOf,
      activityBonusOf, statsBonusOf, seasonGamesOf, zeroLanes]
    norm_num
  rw [h1, h2]
  norm_num

/-- C3 (amended): for every analyzed player with at least one aggregated
match, kdaBonus is (kda - 3) * 30 clamped exactly into [-150, 150],
winRateBonus is (winRate - 50) * 5 uncapped, roleStatsBonus is vision-based
for a UTILITY preferred lane and CS-based otherwise, and the published
teamContribution is the sum tierScore + kdaBonus + winRateBonus +
activityBonus + roleStatsBonus rounded to two decimal places; at KDA 3, win
rate 50 and CS/min 7 off-UTILITY the bonuses are 0, 0 and 5. -/
theorem teamContribution_components (gn tl : String) (env : RiotEnv) (acc : RiotAccount)
    (hacc : env.account = some acc) (hne : matchesOf env ≠ []) :
    ((analyzePlayerStats gn tl env).teamContribution =
      round2 (calculateTierScore (soloOrFlex env.leagues) +
        kdaBonusOf ((aggOf acc.puuid env).kda (matchesOf env).length) +
        winRateBonusOf ((aggOf acc.puuid env).recentWinRate (matchesOf env).length) +
        activityBonusOf env.lg10 (seasonGamesOf (soloOrFlex env.leagues)) +
        statsBonusOf (preferredLaneOf (aggOf acc.puuid env).lanes)
          ((aggOf acc.puuid env).avgVSPM (matchesOf env).length)
          ((aggOf acc.puuid env).avgCSPM (matchesOf env).length))) ∧
    (∀ k : ℚ, -150 ≤ kdaBonusOf k ∧ kdaBonusOf k ≤ 150 ∧
      (-150 ≤ (k - 3) * 30 → (k - 3) * 30 ≤ 150 → kdaBonusOf k = (k - 3) * 30) ∧
      (150 < (k - 3) * 30 → kdaBonusOf k = 150) ∧
      ((k - 3) * 30 < -150 → kdaBonusOf k = -150)) ∧
    (∀ w : ℚ, winRateBonusOf w = (w - 50) * 5) ∧
    (∀ v c : ℚ, statsBonusOf .UTILITY v c = (v - 2) * 20) ∧
    (∀ lane : Lane, lane ≠ .UTILITY → ∀ v c : ℚ, statsBonusOf lane v c = (c - 13 / 2) * 10) ∧
    kdaBonusOf 3 = 0 ∧ winRateBonusOf 50 = 0 ∧ statsBonusOf .TOP 0 7 = 5 := by
  refine ⟨?_, ?_, fun w => rfl, fun v c => rfl, ?_, by norm_num [kdaBonusOf],
    by norm_num [winRateBonusOf], ?_⟩
  · rw [analyzePlayerStats_main gn tl acc env hacc hne]
    rfl
  · intro k
    unfold kdaBonusOf
    refine ⟨le_max_left _ _, max_le (by norm_num) (min_le_left _ _), ?_, ?_, ?_⟩
    · intro h1 h2
      rw [min_eq_right h2, max_eq_right h1]
    · intro h
      rw [min_eq_left (le_of_lt h), max_eq_right (by norm_num)]
    · intro h
      rw [min_eq_right (by linarith), max_eq_left (le_of_lt h)]
  · intro lane hl v c
    simp [statsBonusOf, hl]
  · have hne2 : (Lane.TOP : Lane) ≠ .UTILITY := by intro h; cases h
    norm_num [statsBonusOf, hne2]

/-- Witness for C3 amended at the concrete demoEnv. -/
theorem teamContribution_components_witness :
    demoEnv.account = some ⟨"acc-puuid", "demo", "KR1"⟩ ∧
    matchesOf demoEnv ≠ [] ∧
    (((analyzePlayerStats "demo" "KR1" demoEnv).teamContribution =
      round2 (calculateTierScore (soloOrFlex demoEnv.leagues) +
        kdaBonusOf ((aggOf (RiotAccount.mk "acc-puuid" "demo" "KR1").puuid demoEnv).kda (matchesOf demoEnv).length) +
        winRateBonusOf ((aggOf (RiotAccount.mk "acc-puuid" "demo" "KR1").puuid demoEnv).recentWinRate (matchesOf demoEnv).length) +
        activityBonusOf demoEnv.lg10 (seasonGamesOf (soloOrFlex demoEnv.leagues)) +
        statsBonusOf (preferredLaneOf (aggOf (RiotAccount.mk "acc-puuid" "demo" "KR1").puuid demoEnv).lanes)
          ((aggOf (RiotAccount.mk "acc-puuid" "demo" "KR1").puuid demoEnv).avgVSPM (matchesOf demoEnv).length)
          ((aggOf (RiotAccount.mk "acc-puuid" "demo" "KR1").puuid demoEnv).avgCSPM (matchesOf demoEnv).length))) ∧
    (∀ k : ℚ, -150 ≤ kdaBonusOf k ∧ kdaBonusOf k ≤ 150 ∧
      (-150 ≤ (k - 3) * 30 → (k - 3) * 30 ≤ 150 → kdaBonusOf k = (k - 3) * 30) ∧
      (150 < (k - 3) * 30 → kdaBonusOf k = 150) ∧
      ((k - 3) * 30 < -150 → kdaBonusOf k = -150)) ∧
    (∀ w : ℚ, winRateBonusOf w = (w - 50) * 5) ∧
    (∀ v c : ℚ, statsBonusOf .UTILITY v c = (v - 2) * 20) ∧
    (∀ lane : Lane, lane ≠ .UTILITY → ∀ v c : ℚ, statsBonusOf lane v c = (c - 13 / 2) * 10) ∧
    kdaBonusOf 3 = 0 ∧ winRateBonusOf 50 = 0 ∧ statsBonusOf .TOP 0 7 = 5) :=
  ⟨rfl, by simp [matchesOf, demoEnv, demoMatch],
    teamContribution_components "demo" "KR1" demoEnv ⟨"acc-puuid", "demo", "KR1"⟩ rfl
      (by simp [matchesOf, demoEnv, demoMatch])⟩

/-- C8: for every analyzed player with at least one aggregated match, the
published preferredLane attains the maximum per-lane game count, and among
the lanes attaining that maximum it is the first in the fixed enumeration
order TOP, JUNGLE, MIDDLE, BOTTOM, UTILITY. -/
theorem preferredLane_first_argmax (gn tl : String) (env : RiotEnv) (acc : RiotAccount)
    (hacc : env.account = some acc) (hne : matchesOf env ≠ []) :
    (∀ l, (analyzePlayerStats gn tl env).laneDistribution.get l ≤
      (analyzePlayerStats gn tl env).laneDistribution.get
        (analyzePlayerStats gn tl env).preferredLane) ∧
    (∀ l, (analyzePlayerStats gn tl env).laneDistribution.get l =
        (analyzePlayerStats gn tl env).laneDistribution.get
          (analyzePlayerStats gn tl env).preferredLane →
      laneIdx (analyzePlayerStats gn tl env).preferredLane ≤ laneIdx l) := by
  rw [analyzePlayerStats_main gn tl acc env hacc hne]
  have h1 : (mainStats gn tl acc (soloOrFlex env.leagues) env.lg10
      (matchesOf env)).laneDistribution =
      ((matchesOf env).foldl (aggStep acc.puuid) initAgg).lanes := rfl
  have h2 : (mainStats gn tl acc (soloOrFlex env.leagues) env.lg10
      (matchesOf env)).preferredLane =
      preferredLaneOf ((matchesOf env).foldl (aggStep acc.puuid) initAgg).lanes := rfl
  rw [h1, h2]
  exact preferredLaneOf_spec _

/-- Witness for C8 at the concrete demoEnv. -/
theorem preferredLane_first_argmax_witness :
    demoEnv.account = some ⟨"acc-puuid", "demo", "KR1"⟩ ∧
    matchesOf demoEnv ≠ [] ∧
    ((∀ l, (analyzePlayerStats "demo" "KR1" demoEnv).laneDistribution.get l ≤
      (analyzePlayerStats "demo" "KR1" demoEnv).laneDistribution.get
        (analyzePlayerStats "demo" "KR1" demoEnv).preferredLane) ∧
    (∀ l, (analyzePlayerStats "demo" "KR1" demoEnv).laneDistribution.get l =
        (analyzePlayerStats "demo" "KR1" demoEnv).laneDistribution.get
          (analyzePlayerStats "demo" "KR1" demoEnv).preferredLane →
      laneIdx (analyzePlayerStats "demo" "KR1" demoEnv).preferredLane ≤ laneIdx l)) :=
  ⟨rfl, by simp [matchesOf, demoEnv, demoMatch],
    preferredLane_first_argmax "demo" "KR1" demoEnv ⟨"acc-puuid", "demo", "KR1"⟩ rfl
      (by simp [matchesOf, demoEnv, demoMatch])⟩



theorem pushToTeam_length (ts : List Team) (i : Nat) (p : PlayerStats) :
    (pushToTeam ts i p).length = ts.length := by
  induction ts generalizing i with
  | nil => simp [pushToTeam]
  | cons t rest ih =>
      cases i with
      | zero => simp [pushToTeam]
      | succ i2 => simp [pushToTeam, ih]

theorem pushToTeam_getElem (ts : List Team) (i : Nat) (p : PlayerStats) (k : Nat) :
    (pushToTeam ts i p)[k]? =
      if k = i then (ts[k]?).map (fun t => { t with players := t.players ++ [p] })
      else ts[k]? := by
  induction ts generalizing i k with
  | nil =>
      simp only [pushToTeam, List.getElem?_nil, Option.map_none]
      split <;> rfl
  | cons t rest ih =>
      cases i with
      | zero =>
          cases k with
          | zero => simp [pushToTeam]
          | succ k2 => simp [pushToTeam]
      | succ i2 =>
          cases k with
          | zero => simp [pushToTeam]
          | succ k2 =>
              have := ih i2 k2
              simp only [pushToTeam, List.getElem?_cons_succ, this]
              by_cases hk : k2 = i2
              · simp [hk]
              · simp [hk, fun h => hk (Nat.succ_injective h)]

theorem draftFrom_length (tc : Nat) (ps : List PlayerStats) :
    ∀ (ts : List Team) (j : Nat), (draftFrom tc ps ts j).length = ts.length := by
  induction ps with
  | nil => intro ts j; simp [draftFrom]
  | cons p ps ih =>
      intro ts j
      simp [draftFrom, ih, pushToTeam_length]

theorem draftFrom_getElem (tc : Nat) (ps : List PlayerStats) :
    ∀ (ts : List Team) (j k : Nat),
    (draftFrom tc ps ts j)[k]? =
      (ts[k]?).map (fun t => { t with players := t.players ++
        ((List.enumFrom j ps).filter
          (fun q => decide (snakeTeamOf tc q.1 = k))).map Prod.snd }) := by
  induction ps with
  | nil =>
      intro ts j k
      simp [draftFrom]
  | cons p ps ih =>
      intro ts j k
      rw [show draftFrom tc (p :: ps) ts j =
        draftFrom tc ps (pushToTeam ts (snakeTeamOf tc j) p) (j + 1) from rfl]
      rw [ih, pushToTeam_getElem]
      by_cases hk : k = snakeTeamOf tc j
      · rw [if_pos hk]
        rw [Option.map_map]
        rcases ts[k]? with _ | t
        · rfl
        · simp only [Option.map_some', Function.comp]
          congr 1
          simp only [List.enumFrom, List.filter_cons]
          rw [show (decide (snakeTeamOf tc (j, p).1 = k)) = true from by simp [hk]]
          simp [List.append_assoc]
      · rw [if_neg hk]
        rcases ts[k]? with _ | t
        · rfl
        · simp only [Option.map_some']
          congr 1
          simp only [List.enumFrom, List.filter_cons]
          rw [show (decide (snakeTeamOf tc (j, p).1 = k)) = false from by
            simp
            exact fun h => hk h.symm]
          simp



theorem length_draftOrder (tc : Nat) : (draftOrder tc).length = 2 * tc := by
  simp [draftOrder, Nat.two_mul]

theorem snakeTeamOf_lt (tc : Nat) (htc : 0 < tc) (j : Nat) : snakeTeamOf tc j < tc := by
  unfold snakeTeamOf
  have hlen : 0 < (draftOrder tc).length := by rw [length_draftOrder]; omega
  have hmod : j % (draftOrder tc).length < (draftOrder tc).length := Nat.mod_lt _ hlen
  rw [List.getElem?_eq_getElem hmod]
  simp only [Option.getD_some]
  have hmem : (draftOrder tc)[j % (draftOrder tc).length] ∈ draftOrder tc :=
    List.getElem_mem _
  have hm2 : (draftOrder tc)[j % (draftOrder tc).length] ∈
      List.range tc ++ (List.range tc).reverse := hmem
  rcases List.mem_append.mp hm2 with hm | hm
  · exact List.mem_range.mp hm
  · exact List.mem_range.mp (List.mem_reverse.mp hm)

theorem snakeTeamOf_first (tc x : Nat) (hx : x < tc) : snakeTeamOf tc x = x := by
  unfold snakeTeamOf
  have hmod : x % (draftOrder tc).length = x :=
    Nat.mod_eq_of_lt (by rw [length_draftOrder]; omega)
  rw [hmod]
  unfold draftOrder
  rw [List.getElem?_append]
  simp [hx, List.getElem?_range]

theorem snakeTeamOf_second (tc x : Nat) (hx : x < tc) :
    snakeTeamOf tc (tc + x) = tc - 1 - x := by
  unfold snakeTeamOf
  have hmod : (tc + x) % (draftOrder tc).length = tc + x :=
    Nat.mod_eq_of_lt (by rw [length_draftOrder]; omega)
  rw [hmod]
  unfold draftOrder
  rw [List.getElem?_append_right (by simp)]
  simp only [List.length_range, Nat.add_sub_cancel_left]
  rw [List.getElem?_reverse (by simp [hx])]
  have h2 : tc - 1 - x < tc := by omega
  simp [List.getElem?_range, h2]

theorem snakeTeamOf_period (tc x : Nat) :
    snakeTeamOf tc (2 * tc + x) = snakeTeamOf tc x := by
  unfold snakeTeamOf
  simp only [length_draftOrder, Nat.add_mod_left]

theorem countP_id_range (n k : Nat) :
    (List.range n).countP (fun j => decide (j = k)) = if k < n then 1 else 0 := by
  induction n with
  | zero => simp
  | succ n ih =>
      rw [List.range_succ, List.countP_append, ih]
      simp only [List.countP_cons, List.countP_nil]
      split_ifs <;> simp_all <;> omega

theorem snake_countB (tc : Nat) (k : Nat) (hk : k < tc) :
    (List.range tc).countP (fun j => decide (snakeTeamOf tc j = k)) = 1 := by
  have h1 : (List.range tc).countP (fun j => decide (snakeTeamOf tc j = k)) =
      (List.range tc).countP (fun j => decide (j = k)) :=
    List.countP_congr (fun x hx => by
      simp [snakeTeamOf_first tc x (List.mem_range.mp hx)])
  rw [h1, countP_id_range, if_pos hk]

theorem snake_countA (tc : Nat) (k : Nat) (hk : k < tc) :
    (List.range (2 * tc)).countP (fun j => decide (snakeTeamOf tc j = k)) = 2 := by
  rw [show 2 * tc = tc + tc from by ring, List.range_add, List.countP_append,
    snake_countB tc k hk, List.countP_map]
  have h2 : (List.range tc).countP
      ((fun j => decide (snakeTeamOf tc j = k)) ∘ (fun x => tc + x)) =
      (List.range tc).countP (fun x => decide (x = tc - 1 - k)) :=
    List.countP_congr (fun x hx => by
      have hx2 := List.mem_range.mp hx
      simp only [Function.comp, snakeTeamOf_second tc x hx2]
      simp only [decide_eq_true_eq]
      omega)
  rw [h2, countP_id_range, if_pos (by omega)]

theorem snake_count (tc : Nat) (k : Nat) (hk : k < tc) :
    (List.range (5 * tc)).countP (fun j => decide (snakeTeamOf tc j = k)) = 5 := by
  have hper : ∀ m : Nat, (List.range m).countP
      ((fun j => decide (snakeTeamOf tc j = k)) ∘ (fun x => 2 * tc + x)) =
      (List.range m).countP (fun j => decide (snakeTeamOf tc j = k)) := fun m =>
    List.countP_congr (fun x _ => by
      simp only [Function.comp, snakeTeamOf_period])
  rw [show 5 * tc = 2 * tc + (2 * tc + tc) from by ring, List.range_add,
    List.countP_append, List.countP_map, hper, List.range_add, List.countP_append,
    List.countP_map, hper, snake_countA tc k hk, snake_countB tc k hk]



theorem pushToTeam_flatMap (ts : List Team) (i : Nat) (p : PlayerStats)
    (h : i < ts.length) :
    ((pushToTeam ts i p).flatMap (fun t => t.players)).Perm
      (p :: ts.flatMap (fun t => t.players)) := by
  induction ts generalizing i with
  | nil => simp at h
  | cons t rest ih =>
      cases i with
      | zero =>
          simp only [pushToTeam, List.flatMap_cons]
          rw [List.append_assoc]
          exact List.perm_middle
      | succ i2 =>
          simp only [pushToTeam, List.flatMap_cons]
          have h1 := ih i2 (by simpa using h)
          exact (h1.append_left t.players).trans List.perm_middle

theorem draftFrom_flatMap (tc : Nat) (htc : 0 < tc) (ps : List PlayerStats) :
    ∀ (ts : List Team) (j : Nat), ts.length = tc →
    ((draftFrom tc ps ts j).flatMap (fun t => t.players)).Perm
      (ts.flatMap (fun t => t.players) ++ ps) := by
  induction ps with
  | nil => intro ts j h; simp [draftFrom]
  | cons p ps ih =>
      intro ts j h
      have hlt : snakeTeamOf tc j < ts.length := by
        rw [h]; exact snakeTeamOf_lt tc htc j
      have h1 := ih (pushToTeam ts (snakeTeamOf tc j) p) (j + 1)
        (by rw [pushToTeam_length, h])
      have h2 := pushToTeam_flatMap ts (snakeTeamOf tc j) p hlt
      have h3 : ((draftFrom tc (p :: ps) ts j).flatMap (fun t => t.players)).Perm
          (((p :: ts.flatMap (fun t => t.players))) ++ ps) :=
        h1.trans (h2.append_right ps)
      exact h3.trans List.perm_middle.symm

theorem initialTeams_length (tc : Nat) : (initialTeams tc).length = tc := by
  simp [initialTeams]

theorem initialTeams_getElem (tc k : Nat) (hk : k < tc) :
    (initialTeams tc)[k]? =
      some { teamNumber := k + 1, players := [], avgTeamScore := 0,
             laneDistribution := emptyAssign } := by
  simp [initialTeams, List.getElem?_map, List.getElem?_range hk]

theorem draftedTeams_length (players : List PlayerStats) :
    (draftedTeams players).length = players.length / 5 := by
  rw [draftedTeams, draftFrom_length, initialTeams_length]

theorem draftedTeams_getElem (players : List PlayerStats) (k : Nat)
    (hk : k < players.length / 5) :
    (draftedTeams players)[k]? =
      some { teamNumber := k + 1, players := snakeSlice players k,
             avgTeamScore := 0, laneDistribution := emptyAssign } := by
  rw [draftedTeams, draftFrom_getElem, initialTeams_getElem _ _ hk]
  simp [snakeSlice, List.enum_eq_enumFrom]

theorem snakeSlice_length (players : List PlayerStats) (h10 : 10 ≤ players.length)
    (h5 : players.length % 5 = 0) (k : Nat) (hk : k < players.length / 5) :
    (snakeSlice players k).length = 5 := by
  have hn : 5 * (players.length / 5) = players.length := by omega
  unfold snakeSlice
  rw [List.length_map, ← List.countP_eq_length_filter]
  have h1 : List.countP (fun q : Nat × PlayerStats =>
        decide (snakeTeamOf (players.length / 5) q.1 = k))
        (sortedByContribution players).enum =
      List.countP (fun j => decide (snakeTeamOf (players.length / 5) j = k))
        (List.map Prod.fst (sortedByContribution players).enum) := by
    rw [List.countP_map]
    rfl
  rw [h1, List.enum_map_fst,
    show (sortedByContribution players).length = players.length from by
      rw [sortedByContribution, List.length_mergeSort]]
  set tc := players.length / 5 with htcdef
  rw [show players.length = 5 * tc from by omega]
  exact snake_count tc k hk



theorem LaneAssign.get_set (a : LaneAssign) (l l2 : Lane) (v : Option PlayerStats) :
    (a.set l v).get l2 = if l2 = l then v else a.get l2 := by
  cases l <;> cases l2 <;> simp [LaneAssign.set, LaneAssign.get]

theorem assigned_set_perm (a : LaneAssign) (l : Lane) (p : PlayerStats)
    (h : a.get l = none) :
    ((a.set l (some p)).assigned).Perm (p :: a.assigned) := by
  cases l
  · simp only [LaneAssign.get] at h
    simp [LaneAssign.set, LaneAssign.assigned, h, optList]
  · simp only [LaneAssign.get] at h
    simp only [LaneAssign.set, LaneAssign.assigned, h, optList]
    simpa [List.append_assoc] using
      @List.perm_middle _ p (optList a.TOP) (optList a.MIDDLE ++ optList a.BOTTOM ++ optList a.UTILITY)
  · simp only [LaneAssign.get] at h
    simp only [LaneAssign.set, LaneAssign.assigned, h, optList]
    simpa [List.append_assoc] using
      @List.perm_middle _ p (optList a.TOP ++ optList a.JUNGLE) (optList a.BOTTOM ++ optList a.UTILITY)
  · simp only [LaneAssign.get] at h
    simp only [LaneAssign.set, LaneAssign.assigned, h, optList]
    simpa [List.append_assoc] using
      @List.perm_middle _ p (optList a.TOP ++ optList a.JUNGLE ++ optList a.MIDDLE) (optList a.UTILITY)
  · simp only [LaneAssign.get] at h
    simp only [LaneAssign.set, LaneAssign.assigned, h, optList]
    simpa [List.append_assoc] using
      @List.perm_middle _ p (optList a.TOP ++ optList a.JUNGLE ++ optList a.MIDDLE ++ optList a.BOTTOM) ([] : List PlayerStats)

theorem bestScan_mem (lane : Lane) (l : List PlayerStats) (acc : PlayerStats × Nat) :
    (bestScan lane l acc).1 = acc.1 ∨ (bestScan lane l acc).1 ∈ l := by
  induction l generalizing acc with
  | nil => left; rfl
  | cons p ps ih =>
      simp only [bestScan]
      by_cases hc : p.laneCount lane > acc.2
      · rw [if_pos hc]
        rcases ih (p, p.laneCount lane) with h | h
        · right
          rw [h]
          exact List.mem_cons_self p ps
        · right
          exact List.mem_cons_of_mem _ h
      · rw [if_neg hc]
        rcases ih acc with h | h
        · left
          exact h
        · right
          exact List.mem_cons_of_mem _ h

theorem findBest_mem (players : List PlayerStats) (lane : Lane) (p : PlayerStats)
    (h : findBestPlayerForLane players lane = some p) : p ∈ players := by
  match players with
  | [] => simp [findBestPlayerForLane] at h
  | q :: qs =>
      simp only [findBestPlayerForLane] at h
      split at h
      · rcases bestScan_mem lane (q :: qs) (q, q.laneCount lane) with hm | hm
        · rw [Option.some_inj] at h
          rw [← h, hm]
          exact List.mem_cons_self q qs
        · rw [Option.some_inj] at h
          rw [← h]
          exact hm
      · exact absurd h (by simp)

theorem assignPass1_spec (ls : List Lane) :
    ∀ (a : LaneAssign) (u : List PlayerStats), ls.Nodup →
    (∀ l ∈ ls, a.get l = none) →
    (((assignPass1 ls (a, u)).1.assigned ++ (assignPass1 ls (a, u)).2).Perm
      (a.assigned ++ u)) ∧
    (∀ l, l ∉ ls → (assignPass1 ls (a, u)).1.get l = a.get l) := by
  induction ls with
  | nil =>
      intro a u _ _
      exact ⟨List.Perm.refl _, fun l _ => rfl⟩
  | cons lane rest ih =>
      intro a u hnd hnone
      have hnd2 : rest.Nodup := (List.nodup_cons.mp hnd).2
      have hnotin : lane ∉ rest := (List.nodup_cons.mp hnd).1
      cases hfb : findBestPlayerForLane u lane with
      | none =>
          have hstep : assignPass1 (lane :: rest) (a, u) = assignPass1 rest (a, u) := by
            simp [assignPass1, hfb]
          rw [hstep]
          obtain ⟨h1, h2⟩ := ih a u hnd2 (fun l hl => hnone l (List.mem_cons_of_mem _ hl))
          exact ⟨h1, fun l hl => h2 l (fun hr => hl (List.mem_cons_of_mem _ hr))⟩
      | some p =>
          have hstep : assignPass1 (lane :: rest) (a, u) =
              assignPass1 rest (a.set lane (some p), u.erase p) := by
            simp [assignPass1, hfb]
          rw [hstep]
          have hget : ∀ l ∈ rest, (a.set lane (some p)).get l = none := by
            intro l hl
            rw [LaneAssign.get_set, if_neg (by rintro rfl; exact hnotin hl)]
            exact hnone l (List.mem_cons_of_mem _ hl)
          obtain ⟨h1, h2⟩ := ih (a.set lane (some p)) (u.erase p) hnd2 hget
          constructor
          · refine h1.trans ?_
            have ha : ((a.set lane (some p)).assigned).Perm (p :: a.assigned) :=
              assigned_set_perm a lane p (hnone lane (List.mem_cons_self _ _))
            have hu : u.Perm (p :: u.erase p) :=
              List.perm_cons_erase (findBest_mem u lane p hfb)
            have s1 : ((a.set lane (some p)).assigned ++ u.erase p).Perm
                (p :: (a.assigned ++ u.erase p)) := ha.append_right _
            have s2 : (p :: (a.assigned ++ u.erase p)).Perm
                (a.assigned ++ (p :: u.erase p)) := List.perm_middle.symm
            have s3 : (a.assigned ++ (p :: u.erase p)).Perm (a.assigned ++ u) :=
              List.Perm.append_left _ hu.symm
            exact (s1.trans s2).trans s3
          · intro l hl
            rw [h2 l (fun hr => hl (List.mem_cons_of_mem _ hr)),
              LaneAssign.get_set, if_neg (by rintro rfl; exact hl (List.mem_cons_self _ _))]



theorem assignPass2_spec (ls : List Lane) :
    ∀ (a : LaneAssign) (u : List PlayerStats), ls.Nodup →
    ls.countP (fun l => (a.get l).isNone) = u.length →
    (∀ l ∈ ls, ((assignPass2 ls (a, u)).1.get l).isSome) ∧
    (∀ l, l ∉ ls → (assignPass2 ls (a, u)).1.get l = a.get l) ∧
    (((assignPass2 ls (a, u)).1.assigned ++ (assignPass2 ls (a, u)).2).Perm
      (a.assigned ++ u)) ∧
    (assignPass2 ls (a, u)).2 = [] := by
  induction ls with
  | nil =>
      intro a u _ hcnt
      have hu : u = [] := by
        simp at hcnt
        exact (List.length_eq_zero.mp hcnt.symm)
      subst hu
      exact ⟨by simp, fun l _ => rfl, by simp [assignPass2], rfl⟩
  | cons lane rest ih =>
      intro a u hnd hcnt
      have hnd2 : rest.Nodup := (List.nodup_cons.mp hnd).2
      have hnotin : lane ∉ rest := (List.nodup_cons.mp hnd).1
      cases hga : a.get lane with
      | some q =>
          have hcnt2 : rest.countP (fun l => (a.get l).isNone) = u.length := by
            simp [List.countP_cons, hga] at hcnt
            exact hcnt
          have hstep : assignPass2 (lane :: rest) (a, u) = assignPass2 rest (a, u) := by
            cases u <;> simp [assignPass2, hga]
          rw [hstep]
          obtain ⟨h1, h2, h3, h4⟩ := ih a u hnd2 hcnt2
          refine ⟨?_, ?_, h3, h4⟩
          · intro l hl
            rcases List.mem_cons.mp hl with rfl | hl2
            · rw [h2 l hnotin, hga]
              rfl
            · exact h1 l hl2
          · intro l hl
            exact h2 l (fun hr => hl (List.mem_cons_of_mem _ hr))
      | none =>
          cases u with
          | nil =>
              exfalso
              simp [List.countP_cons, hga] at hcnt
          | cons p u2 =>
              have hcnt2 : rest.countP
                  (fun l => ((a.set lane (some p)).get l).isNone) = u2.length := by
                have heq : rest.countP (fun l => ((a.set lane (some p)).get l).isNone) =
                    rest.countP (fun l => (a.get l).isNone) :=
                  List.countP_congr (fun l hl => by
                    rw [LaneAssign.get_set, if_neg (by rintro rfl; exact hnotin hl)])
                rw [heq]
                simp [List.countP_cons, hga] at hcnt
                omega
              obtain ⟨h1, h2, h3, h4⟩ := ih (a.set lane (some p)) u2 hnd2 hcnt2
              rw [show assignPass2 (lane :: rest) (a, p :: u2) =
                  assignPass2 rest (a.set lane (some p), u2) from by
                simp [assignPass2, hga]]
              refine ⟨?_, ?_, ?_, h4⟩
              · intro l hl
                rcases List.mem_cons.mp hl with rfl | hl2
                · rw [h2 l hnotin, LaneAssign.get_set, if_pos rfl]
                  rfl
                · exact h1 l hl2
              · intro l hl
                rw [h2 l (fun hr => hl (List.mem_cons_of_mem _ hr)),
                  LaneAssign.get_set, if_neg (by rintro rfl; exact hl (List.mem_cons_self _ _))]
              · refine h3.trans ?_
                have ha : ((a.set lane (some p)).assigned).Perm (p :: a.assigned) :=
                  assigned_set_perm a lane p hga
                have s1 : ((a.set lane (some p)).assigned ++ u2).Perm
                    (p :: (a.assigned ++ u2)) := ha.append_right _
                have s2 : (p :: (a.assigned ++ u2)).Perm (a.assigned ++ (p :: u2)) :=
                  List.perm_middle.symm
                exact s1.trans s2

theorem assigned_length_noneCount (a : LaneAssign) :
    a.assigned.length + lanesList.countP (fun l => (a.get l).isNone) = 5 := by
  obtain ⟨t, j, m, b, u⟩ := a
  cases t <;> cases j <;> cases m <;> cases b <;> cases u <;>
    simp [LaneAssign.assigned, optList, lanesList, LaneAssign.get, List.countP_cons]

theorem optimizeLaneDistribution_spec (team : Team) (h5 : team.players.length = 5) :
    (∀ lane, (((optimizeLaneDistribution team).laneDistribution).get lane).isSome) ∧
    (((optimizeLaneDistribution team).laneDistribution).assigned).Perm team.players := by
  have hnod : lanesList.Nodup := by decide
  have hempty : ∀ l ∈ lanesList, emptyAssign.get l = none := by
    intro l _
    cases l <;> rfl
  obtain ⟨hp1, hp1out⟩ := assignPass1_spec lanesList emptyAssign team.players hnod hempty
  have hlen1 : (assignPass1 lanesList (emptyAssign, team.players)).1.assigned.length +
      (assignPass1 lanesList (emptyAssign, team.players)).2.length = 5 := by
    have hl := hp1.length_eq
    simp only [List.length_append] at hl
    rw [hl]
    simp [emptyAssign, LaneAssign.assigned, optList, h5]
  have hcnt : lanesList.countP
      (fun l => ((assignPass1 lanesList (emptyAssign, team.players)).1.get l).isNone) =
      (assignPass1 lanesList (emptyAssign, team.players)).2.length := by
    have h2 := assigned_length_noneCount (assignPass1 lanesList (emptyAssign, team.players)).1
    omega
  obtain ⟨h1, h2, h3, h4⟩ := assignPass2_spec lanesList
    (assignPass1 lanesList (emptyAssign, team.players)).1
    (assignPass1 lanesList (emptyAssign, team.players)).2 hnod hcnt
  constructor
  · intro lane
    exact h1 lane (by cases lane <;> simp [lanesList])
  · have h5p : ((assignPass2 lanesList (assignPass1 lanesList (emptyAssign, team.players))).1.assigned ++
        (assignPass2 lanesList (assignPass1 lanesList (emptyAssign, team.players))).2).Perm
        (team.players) := by
      have hperm := h3.trans hp1
      simpa [emptyAssign, LaneAssign.assigned, optList] using hperm
    rw [show (assignPass2 lanesList (assignPass1 lanesList (emptyAssign, team.players))).2 = [] from h4,
      List.append_nil] at h5p
    exact h5p



theorem optimize_players (t : Team) : (optimizeLaneDistribution t).players = t.players := rfl

theorem withAvg_players (t : Team) : (withAvgScore t).players = t.players := rfl

theorem withAvg_lanes (t : Team) :
    (withAvgScore t).laneDistribution = t.laneDistribution := rfl

theorem flatMap_players_map (ts : List Team) (f : Team → Team)
    (hf : ∀ t, (f t).players = t.players) :
    (ts.map f).flatMap (fun t => t.players) = ts.flatMap (fun t => t.players) := by
  induction ts with
  | nil => rfl
  | cons t rest ih => simp [List.flatMap_cons, hf, ih]

theorem divideIntoTeams_eq_ok (players : List PlayerStats) (h10 : 10 ≤ players.length)
    (h5 : players.length % 5 = 0) :
    divideIntoTeams players = .ok (finalTeams players) := by
  have hcond : ¬(players.length < 10 ∨ players.length % 5 ≠ 0) := by omega
  simp [divideIntoTeams, hcond, finalTeams, draftedTeams]

theorem finalTeams_length (players : List PlayerStats) :
    (finalTeams players).length = players.length / 5 := by
  simp [finalTeams, List.length_map, draftedTeams_length]

theorem finalTeams_getElem (players : List PlayerStats) (k : Nat)
    (hk : k < players.length / 5) :
    (finalTeams players)[k]? = some (withAvgScore (optimizeLaneDistribution
      { teamNumber := k + 1, players := snakeSlice players k,
        avgTeamScore := 0, laneDistribution := emptyAssign })) := by
  simp [finalTeams, List.getElem?_map, draftedTeams_getElem players k hk]

theorem mem_finalTeams (players : List PlayerStats) (t : Team)
    (ht : t ∈ finalTeams players) :
    ∃ k, k < players.length / 5 ∧
      t = withAvgScore (optimizeLaneDistribution
        { teamNumber := k + 1, players := snakeSlice players k,
          avgTeamScore := 0, laneDistribution := emptyAssign }) := by
  rcases List.mem_iff_getElem?.mp ht with ⟨k, hk⟩
  have hklt : k < (finalTeams players).length := by
    rcases List.getElem?_eq_some_iff.mp hk with ⟨h, _⟩
    exact h
  rw [finalTeams_length] at hklt
  rw [finalTeams_getElem players k hklt] at hk
  exact ⟨k, hklt, (Option.some_inj.mp hk).symm⟩

theorem finalTeams_flatMap_perm (players : List PlayerStats) (h10 : 10 ≤ players.length)
    (h5 : players.length % 5 = 0) :
    ((finalTeams players).flatMap (fun t => t.players)).Perm players := by
  rw [finalTeams, flatMap_players_map _ _ withAvg_players,
    flatMap_players_map _ _ optimize_players]
  have htc : 0 < players.length / 5 := by omega
  have h1 := draftFrom_flatMap (players.length / 5) htc (sortedByContribution players)
    (initialTeams (players.length / 5)) 0 (initialTeams_length _)
  have h2 : (initialTeams (players.length / 5)).flatMap (fun t => t.players) = [] := by
    rw [List.flatMap_eq_nil_iff]
    intro t ht
    rcases List.mem_map.mp ht with ⟨i, _, rfl⟩
    rfl
  rw [draftedTeams]
  refine h1.trans ?_
  rw [h2, List.nil_append]
  exact List.mergeSort_perm players _

theorem sortedByContribution_pairwise (players : List PlayerStats) :
    (sortedByContribution players).Pairwise
      (fun a b => b.teamContribution ≤ a.teamContribution) := by
  have htrans : ∀ a b c : PlayerStats,
      (decide (b.teamContribution ≤ a.teamContribution)) = true →
      (decide (c.teamContribution ≤ b.teamContribution)) = true →
      (decide (c.teamContribution ≤ a.teamContribution)) = true := by
    intro a b c h1 h2
    simp only [decide_eq_true_eq] at h1 h2 ⊢
    exact h2.trans h1
  have htotal : ∀ a b : PlayerStats,
      ((decide (b.teamContribution ≤ a.teamContribution)) ||
        (decide (a.teamContribution ≤ b.teamContribution))) = true := by
    intro a b
    simpa using le_total b.teamContribution a.teamContribution
  have hp := @List.sorted_mergeSort PlayerStats
    (fun a b => decide (b.teamContribution ≤ a.teamContribution)) htrans htotal players
  exact hp.imp (fun h => by simpa using h)

theorem divideTeamsHandler_ok_aux (batch : List (String × String × RiotEnv))
    (h10 : 10 ≤ batch.length) (h5 : batch.length % 5 = 0) :
    divideTeamsHandler batch =
      .ok (finalTeams (batch.map (fun b => analyzePlayerStats b.1 b.2.1 b.2.2))) := by
  have hcond : ¬(batch.length < 10 ∨ batch.length % 5 ≠ 0) := by omega
  have hlen : (batch.map (fun b => analyzePlayerStats b.1 b.2.1 b.2.2)).length =
      batch.length := List.length_map _ _
  have h10m : 10 ≤ (batch.map (fun b => analyzePlayerStats b.1 b.2.1 b.2.2)).length := by
    rw [hlen]; exact h10
  have h5m : (batch.map (fun b => analyzePlayerStats b.1 b.2.1 b.2.2)).length % 5 = 0 := by
    rw [hlen]; exact h5
  have hnot : ¬((batch.map (fun b => analyzePlayerStats b.1 b.2.1 b.2.2)).length < 10) := by
    omega
  simp only [divideTeamsHandler, hcond, if_false]
  rw [if_neg hnot, divideIntoTeams_eq_ok _ h10m h5m]



/-- C4: for every valid-size input, divideIntoTeams returns exactly
length / 5 teams; each team holds exactly 5 members; the members of all
teams together are a permutation of the input (so every input player belongs
to exactly one team); the players are in stable descending teamContribution
order before assignment; and team k receives exactly the sorted players at
the pick indices the cyclic snake order 0..teamCount-1 then teamCount-1..0
maps to k, in pick order. -/
theorem divideIntoTeams_partition (players : List PlayerStats)
    (h10 : 10 ≤ players.length) (h5 : players.length % 5 = 0) :
    ∃ teams, divideIntoTeams players = .ok teams ∧
      teams.length = players.length / 5 ∧
      (∀ t ∈ teams, t.players.length = 5) ∧
      ((teams.flatMap (fun t => t.players)).Perm players) ∧
      ((sortedByContribution players).Pairwise
        (fun a b => b.teamContribution ≤ a.teamContribution)) ∧
      (∀ k, k < teams.length →
        (teams[k]?).map (fun t => t.players) = some (snakeSlice players k)) := by
  refine ⟨finalTeams players, divideIntoTeams_eq_ok players h10 h5,
    finalTeams_length players, ?_, finalTeams_flatMap_perm players h10 h5,
    sortedByContribution_pairwise players, ?_⟩
  · intro t ht
    rcases mem_finalTeams players t ht with ⟨k, hk, rfl⟩
    rw [withAvg_players, optimize_players]
    exact snakeSlice_length players h10 h5 k hk
  · intro k hk
    rw [finalTeams_length] at hk
    rw [finalTeams_getElem players k hk]
    simp [withAvg_players, optimize_players]

/-- Witness for C4 at the concrete ten demo players. -/
theorem divideIntoTeams_partition_witness :
    10 ≤ demoPlayers.length ∧ demoPlayers.length % 5 = 0 ∧
    (∃ teams, divideIntoTeams demoPlayers = .ok teams ∧
      teams.length = demoPlayers.length / 5 ∧
      (∀ t ∈ teams, t.players.length = 5) ∧
      ((teams.flatMap (fun t => t.players)).Perm demoPlayers) ∧
      ((sortedByContribution demoPlayers).Pairwise
        (fun a b => b.teamContribution ≤ a.teamContribution)) ∧
      (∀ k, k < teams.length →
        (teams[k]?).map (fun t => t.players) = some (snakeSlice demoPlayers k))) :=
  ⟨by decide, by decide, divideIntoTeams_partition demoPlayers (by decide) (by decide)⟩

/-- C10: every team produced by divideIntoTeams has an occupant in every
one of the five roles, and the five occupants are exactly the five team
members, each occupying one role (the occupant list is a permutation of the
member list), even when no member has recorded games in some role. -/
theorem divideIntoTeams_lane_coverage (players : List PlayerStats)
    (h10 : 10 ≤ players.length) (h5 : players.length % 5 = 0) (teams : List Team)
    (hok : divideIntoTeams players = .ok teams) :
    ∀ t ∈ teams, (∀ lane, ((t.laneDistribution).get lane).isSome) ∧
      ((t.laneDistribution).assigned).Perm t.players := by
  rw [divideIntoTeams_eq_ok players h10 h5] at hok
  have hteams : teams = finalTeams players := by
    injection hok with h
    exact h.symm
  subst hteams
  intro t ht
  rcases mem_finalTeams players t ht with ⟨k, hk, rfl⟩
  have hlen : (Team.mk (k + 1) (snakeSlice players k) 0 emptyAssign).players.length = 5 :=
    snakeSlice_length players h10 h5 k hk
  obtain ⟨hs1, hs2⟩ := optimizeLaneDistribution_spec _ hlen
  exact ⟨hs1, hs2⟩

/-- Witness for C10 at the concrete ten demo players. -/
theorem divideIntoTeams_lane_coverage_witness :
    10 ≤ demoPlayers.length ∧ demoPlayers.length % 5 = 0 ∧
    divideIntoTeams demoPlayers = .ok (finalTeams demoPlayers) ∧
    (∀ t ∈ finalTeams demoPlayers,
      (∀ lane, ((t.laneDistribution).get lane).isSome) ∧
      ((t.laneDistribution).assigned).Perm t.players) :=
  ⟨by decide, by decide, divideIntoTeams_eq_ok demoPlayers (by decide) (by decide),
    divideIntoTeams_lane_coverage demoPlayers (by decide) (by decide)
      (finalTeams demoPlayers) (divideIntoTeams_eq_ok demoPlayers (by decide) (by decide))⟩

/-- C6 (counterexample): a batch of ten identities of which zero resolve to
accounts — so fewer than 10 successful resolutions — still succeeds: the
zero-score placeholders count toward the ten-entry floor, and no
InsufficientResults error is raised. -/
theorem divideTeamsHandler_counts_placeholders_cex :
    unresolvedBatch.length = 10 ∧
    (∀ b ∈ unresolvedBatch, b.2.2.account = none) ∧
    (∃ teams, divideTeamsHandler unresolvedBatch = .ok teams) := by
  refine ⟨rfl, ?_, ?_⟩
  · intro b hb
    rcases List.mem_map.mp hb with ⟨i, _, rfl⟩
    rfl
  · exact ⟨_, divideTeamsHandler_ok_aux unresolvedBatch (by decide) (by decide)⟩

/-- C6 (amended): for every batch whose total identity count is at least 10
and a multiple of 5, the divide-teams operation succeeds regardless of how
many identities resolve: analyzePlayerStats settles a stats record —
possibly a zero-score placeholder — for every identity, every record counts
toward the ten-entry floor, and InsufficientResults is never raised. -/
theorem divideTeamsHandler_never_insufficient (batch : List (String × String × RiotEnv))
    (h10 : 10 ≤ batch.length) (h5 : batch.length % 5 = 0) :
    ∃ teams, divideTeamsHandler batch = .ok teams :=
  ⟨_, divideTeamsHandler_ok_aux batch h10 h5⟩

/-- Witness for C6 amended at the batch of eight resolvable and two
unresolvable identities. -/
theorem divideTeamsHandler_never_insufficient_witness :
    10 ≤ mixedBatch.length ∧ mixedBatch.length % 5 = 0 ∧
    (∃ teams, divideTeamsHandler mixedBatch = .ok teams) :=
  ⟨by decide, by decide, divideTeamsHandler_never_insufficient mixedBatch (by decide) (by decide)⟩

end TeamMaker
